import Mathlib

/-!
Verification development for the Lucid chunker and encryptor native
extensions.  The C sources under apps/chunker and apps/encryptor are
shallowly embedded: byte buffers become List Nat (each entry a byte
value), machine sizes become Nat, fallible C functions returning -1 or
a zlib status become Except / Option values, and the external
primitives (zlib deflate/inflate, libsodium secretbox and signatures)
are given executable models that reproduce the behaviours the embedded
code depends on: output sizes, the fixed per-stream overhead, the
authenticated-open success condition, and invertibility.
-/

/-! ## Constants from chunker.h and the libsodium headers -/

/-- MAX_CHUNK_SIZE from chunker.h: 100 MiB hard ceiling on a chunk. -/
def MAX_CHUNK_SIZE : Nat := 100 * 1024 * 1024

/-- DEFAULT_COMPRESSION_LEVEL from chunker.h. -/
def DEFAULT_COMPRESSION_LEVEL : Nat := 6

/-! ## Model of the external zlib primitives

The chunker calls zlib through compress_data / decompress_data in
compression.c, always with a single deflate (resp. inflate) call in
Z_FINISH mode: the call succeeds (Z_STREAM_END, mapped to Z_OK by the
wrapper) exactly when the whole encoded (resp. decoded) stream fits in
the supplied output buffer.  The model below reproduces the facts of
deflate that the embedded code depends on: a compressed stream carries
a fixed overhead (header, block type, checksum trailer) even for empty
input, its total size never exceeds the input size plus that overhead,
runs of equal bytes compress far below the input size, and inflate
inverts deflate.  The encoded form is: 2 header bytes, 1 block-type
byte (0 = stored, 1 = run-length coded), the block payload, and 4
trailer bytes. -/

/-- Length of the run of bytes equal to b at the head of the list. -/
def countRun (b : Nat) : List Nat → Nat
  | [] => 0
  | x :: xs => if x = b then countRun b xs + 1 else 0

/-- Run-length encode: pairs of (run length at most 255, byte value).
The first argument is fuel, always instantiated with the list length. -/
def rleAux : Nat → List Nat → List Nat
  | 0, _ => []
  | _, [] => []
  | fuel + 1, b :: rest =>
      let k := min 254 (countRun b rest)
      (k + 1) :: b :: rleAux fuel (rest.drop k)

/-- Run-length decode, fuel-indexed like rleAux. -/
def rleDecAux : Nat → List Nat → List Nat
  | 0, _ => []
  | _, [] => []
  | _ + 1, [_] => []
  | fuel + 1, n :: b :: rest => List.replicate n b ++ rleDecAux fuel rest

/-- Model of zlib deflate in Z_FINISH mode: the complete compressed
stream for the given input.  The compression level only changes the
ratio of the real primitive, never the facts the wrapper code relies
on, so the model does not consume it beyond receiving it. -/
def deflateModel (level : Nat) (input : List Nat) : List Nat :=
  let rle := rleAux input.length input
  if rle.length < input.length then
    120 :: 1 :: 1 :: (rle ++ [0, 0, 0, 0])
  else
    120 :: 1 :: 0 :: (input ++ [0, 0, 0, 0])

/-- Model of zlib inflate in Z_FINISH mode: recover the original bytes
from a complete compressed stream, or none on a malformed stream. -/
def inflateModel (c : List Nat) : Option (List Nat) :=
  if c.length < 7 then none
  else
    match (c.drop 2).take (c.length - 6) with
    | 0 :: payload => some payload
    | 1 :: payload => some (rleDecAux payload.length payload)
    | _ => none

/-! ## compression.c -/

/-- Status values distinguished by the compression.c wrappers: a
deflateInit/inflateInit failure (Z_STREAM_ERROR, e.g. an out-of-range
level), or the stream not reaching Z_STREAM_END because the output
buffer was too small. -/
inductive ZError
  | streamError
  | bufError
  | dataError
deriving DecidableEq, Repr

/-- compress_data from compression.c: initialise a fresh deflate
stream at the given level, deflate the whole input with Z_FINISH into
a buffer of output_size bytes, succeed only when the stream ends
(Z_STREAM_END) inside the buffer. -/
def compress_data (input : List Nat) (output_size : Nat) (level : Nat) :
    Except ZError (List Nat) :=
  if 9 < level then .error .streamError
  else
    let out := deflateModel level input
    if out.length ≤ output_size then .ok out else .error .bufError

/-- decompress_data from compression.c: initialise a fresh inflate
stream, inflate the whole input with Z_FINISH into a buffer of
output_size bytes, succeed only when the stream ends inside it. -/
def decompress_data (input : List Nat) (output_size : Nat) :
    Except ZError (List Nat) :=
  match inflateModel input with
  | none => .error .dataError
  | some out => if out.length ≤ output_size then .ok out else .error .bufError

/-! ## chunker.c -/

/-- The result dictionary built by Chunker_chunk: compressed data, the
algorithm name string, and the checksum string (the C source stores
the literal placeholder, flagged there with a TODO comment). -/
structure ChunkRecord where
  data : List Nat
  algorithm : String
  checksum : String
deriving DecidableEq, Repr

/-- Failure modes of the Chunker methods, one per distinct error path
in chunker.c: the size-ceiling ValueError and the zlib failures. -/
inductive ChunkError
  | payloadTooLarge
  | compressionFailed
  | decompressionFailed
deriving DecidableEq, Repr

/-- Chunker_chunk from chunker.c: reject payloads over MAX_CHUNK_SIZE
before any other work, then compress into a buffer of twice the input
length (the estimate malloc uses) and build the result dictionary. -/
def Chunker_chunk (level : Nat) (data : List Nat) :
    Except ChunkError ChunkRecord :=
  if MAX_CHUNK_SIZE < data.length then .error .payloadTooLarge
  else
    match compress_data data (2 * data.length) level with
    | .ok comp =>
        .ok { data := comp, algorithm := "zlib", checksum := "sha256_hash_here" }
    | .error _ => .error .compressionFailed

/-- Chunker_decompress from chunker.c: decompress into a buffer of
four times the input length (the estimate malloc uses). -/
def Chunker_decompress (data : List Nat) : Except ChunkError (List Nat) :=
  match decompress_data data (4 * data.length) with
  | .ok out => .ok out
  | .error _ => .error .decompressionFailed

/-! ## Model of the external libsodium primitives

crypto.c calls crypto_secretbox_easy / crypto_secretbox_open_easy:
an authenticated cipher whose output is a 16-byte authentication tag
followed by the ciphertext, opened by recomputing the tag from the
key, nonce and ciphertext and comparing before any plaintext is
produced.  The model keeps those shapes exactly: tag length, nonce
length and key length match the libsodium constants, the keystream
and tag are concrete executable functions of the key and nonce, and
open either returns the complete plaintext or nothing. -/

/-- crypto_secretbox_NONCEBYTES (XSalsa20-Poly1305 nonce length). -/
def crypto_secretbox_NONCEBYTES : Nat := 24

/-- crypto_secretbox_MACBYTES (Poly1305 tag length). -/
def crypto_secretbox_MACBYTES : Nat := 16

/-- crypto_secretbox_KEYBYTES (secretbox key length). -/
def crypto_secretbox_KEYBYTES : Nat := 32

/-- Keystream byte at position i, a model of the stream cipher keyed
by the key and nonce bytes. -/
def ksByte (key nonce : List Nat) (i : Nat) : Nat :=
  (key.sum * 31 + nonce.sum * 17 + i * 7 + 3) % 256

/-- Apply the keystream to a message starting at position i. -/
def cipherFrom (key nonce : List Nat) (i : Nat) : List Nat → List Nat
  | [] => []
  | b :: bs => (b + ksByte key nonce i) % 256 :: cipherFrom key nonce (i + 1) bs

/-- Remove the keystream from a ciphertext starting at position i. -/
def decipherFrom (key nonce : List Nat) (i : Nat) : List Nat → List Nat
  | [] => []
  | b :: bs =>
      (b + 256 - ksByte key nonce i) % 256 :: decipherFrom key nonce (i + 1) bs

/-- Accumulated state of the tag computation over key, nonce and
ciphertext, a model of the one-time authenticator. -/
def macSeed (key nonce c : List Nat) : Nat :=
  (key ++ nonce ++ c).foldl
    (fun a b => (a * 257 + b + 1) % 18446744073709551616) 5381

/-- The 16 tag bytes derived from the authenticator state. -/
def macBytes (key nonce c : List Nat) : List Nat :=
  (List.range crypto_secretbox_MACBYTES).map
    (fun i => macSeed key nonce c / 256 ^ i % 256)

/-- Model of crypto_secretbox_easy: tag followed by ciphertext. -/
def crypto_secretbox_easy (m nonce key : List Nat) : List Nat :=
  macBytes key nonce (cipherFrom key nonce 0 m) ++ cipherFrom key nonce 0 m

/-- Model of crypto_secretbox_open_easy: recompute the tag over the
ciphertext and compare; only on a match is any plaintext produced. -/
def crypto_secretbox_open_easy (c nonce key : List Nat) :
    Option (List Nat) :=
  if c.length < crypto_secretbox_MACBYTES then none
  else if c.take crypto_secretbox_MACBYTES =
      macBytes key nonce (c.drop crypto_secretbox_MACBYTES) then
    some (decipherFrom key nonce 0 (c.drop crypto_secretbox_MACBYTES))
  else none

/-! ## crypto.c -/

/-- Algorithm enum from encryptor.h. -/
inductive crypto_algorithm_t
  | CRYPTO_XCHACHA20_POLY1305
  | CRYPTO_CHACHA20_POLY1305
  | CRYPTO_AES256_GCM
  | CRYPTO_SALSA20_POLY1305
deriving DecidableEq, Repr

/-- The two distinct failure paths of decrypt_data in crypto.c: the
input-length check taken before anything else, and the secretbox open
reporting a tag mismatch.  The C function reports both as -1; the
constructors record which return statement fired. -/
inductive CryptoError
  | malformedEnvelope
  | authenticationFailed
deriving DecidableEq, Repr

/-- encrypt_data from crypto.c.  The nonce parameter stands for the
randombytes_buf output (the one non-deterministic input); the C
function lays out nonce, then tag, then ciphertext.  The
additional_data and algorithm parameters are received exactly as in
the C signature; the C body never reads either of them. -/
def encrypt_data (data key : List Nat)
    (additional_data : List Nat) (nonce : List Nat)
    (algorithm : crypto_algorithm_t) : Option (List Nat) :=
  some (nonce ++ crypto_secretbox_easy data nonce key)

/-- decrypt_data from crypto.c: reject inputs shorter than nonce plus
tag before touching the cipher, split off the leading nonce, and open
the remainder; on open failure free the buffer and return the error,
so no plaintext ever escapes a failed call. -/
def decrypt_data (encrypted_data key : List Nat)
    (algorithm : crypto_algorithm_t) : Except CryptoError (List Nat) :=
  if encrypted_data.length <
      crypto_secretbox_NONCEBYTES + crypto_secretbox_MACBYTES then
    .error .malformedEnvelope
  else
    match crypto_secretbox_open_easy
        (encrypted_data.drop crypto_secretbox_NONCEBYTES)
        (encrypted_data.take crypto_secretbox_NONCEBYTES) key with
    | some m => .ok m
    | none => .error .authenticationFailed

/-! ## Model of the libsodium signature primitives

encryptor.c calls crypto_sign_keypair, crypto_sign and
crypto_sign_verify_detached.  In the model a keypair is produced from
the random seed gathered at generation time, the public key is a
function of the secret key, a detached signature is a function of the
message and the public key of the signing key, and verification
recomputes that function from the supplied public key.  The C code
passes NULL for the public key at its only verification site; the
model receives that as none, and with no key material no signature
can verify. -/

/-- Public key derived from a secret key. -/
def pkOf (sk : List Nat) : List Nat := sk.map (fun b => (b * 7 + 1) % 256)

/-- The 64 signature bytes determined by a message and a public key. -/
def signWithPk (m pk : List Nat) : List Nat :=
  (List.range 64).map
    (fun i => (m ++ pk).foldl (fun a b => (a * 131 + b + 3) % 4294967296) i % 256)

/-- Model of crypto_sign_detached. -/
def crypto_sign_detached (m sk : List Nat) : List Nat :=
  signWithPk m (pkOf sk)

/-- Model of crypto_sign: attached signature, signature bytes followed
by the message. -/
def crypto_sign (m sk : List Nat) : List Nat :=
  crypto_sign_detached m sk ++ m

/-- Model of crypto_sign_verify_detached.  The pk argument is an
Option because encryptor.c passes NULL for it: with no public key,
verification cannot succeed. -/
def crypto_sign_verify_detached (sig m : List Nat)
    (pk : Option (List Nat)) : Bool :=
  match pk with
  | none => false
  | some p => sig == signWithPk m p

/-! ## encryptor.c -/

/-- MAX_DATA_SIZE from encryptor.c: 1 GiB input ceiling. -/
def MAX_DATA_SIZE : Nat := 1024 * 1024 * 1024

/-- The distinct error paths of the Encryptor methods in encryptor.c. -/
inductive EncError
  | dataTooLarge
  | invalidKeySize
  | encryptionFailed
  | decryptionFailed
deriving DecidableEq, Repr

/-- Encryptor_encrypt from encryptor.c: validate the data size and the
key length, then run encrypt_data with the configured algorithm. -/
def Encryptor_encrypt (algorithm : crypto_algorithm_t)
    (data key additional_data nonce : List Nat) :
    Except EncError (List Nat) :=
  if MAX_DATA_SIZE < data.length then .error .dataTooLarge
  else if key.length ≠ crypto_secretbox_KEYBYTES then .error .invalidKeySize
  else
    match encrypt_data data key additional_data nonce algorithm with
    | some e => .ok e
    | none => .error .encryptionFailed

/-- Encryptor_decrypt from encryptor.c: validate the key length, then
run decrypt_data; every decrypt_data failure is reported as the single
RuntimeError the method raises. -/
def Encryptor_decrypt (algorithm : crypto_algorithm_t)
    (encrypted_data key : List Nat) : Except EncError (List Nat) :=
  if key.length ≠ crypto_secretbox_KEYBYTES then .error .invalidKeySize
  else
    match decrypt_data encrypted_data key algorithm with
    | .ok m => .ok m
    | .error _ => .error .decryptionFailed

/-- Encryptor_sign from encryptor.c: generate a brand-new keypair from
fresh randomness (the seed parameter models the crypto_sign_keypair
randomness), sign with its secret key, and return the attached signed
message.  The keypair is a local variable and is discarded. -/
def Encryptor_sign (data seed : List Nat) : List Nat :=
  crypto_sign data seed

/-- Encryptor_verify from encryptor.c: verify the supplied buffer as a
detached signature over the data, passing NULL for the public key. -/
def Encryptor_verify (data signature : List Nat) : Bool :=
  crypto_sign_verify_detached signature data none

/-! ## utils.c -/

/-- Hex digit characters. -/
def hexDigit (n : Nat) : Char :=
  if n < 10 then Char.ofNat (48 + n) else Char.ofNat (87 + n % 16)

/-- Model of crypto_generichash: a 32-byte keyless hash. -/
def generichashModel (data : List Nat) : List Nat :=
  (List.range 32).map
    (fun i =>
      data.foldl (fun a b => (a * 167 + b + 11) % 4294967296) (i + 1) % 256)

/-- calculate_checksum from utils.c: hash the data and render the hash
as a lowercase hex string.  This helper exists in the encryptor
sources; nothing in chunker.c calls it. -/
def calculate_checksum (data : List Nat) : String :=
  String.mk ((generichashModel data).foldr
    (fun b acc => hexDigit (b / 16) :: hexDigit (b % 16) :: acc) [])

/-! ## Sample inputs used by the concrete witnesses -/

/-- A 32-byte key. -/
def sampleKeyA : List Nat := (List.range 32).map (fun i => (i * 11 + 1) % 256)

/-- A second, different 32-byte key. -/
def sampleKeyB : List Nat := (List.range 32).map (fun i => (i * 13 + 2) % 256)

/-- A 24-byte nonce. -/
def sampleNonce : List Nat := (List.range 24).map (fun i => (i * 5 + 4) % 256)

/-- A short plaintext. -/
def sampleMsg : List Nat := [10, 20, 30]

/-- The envelope encrypt_data produces for sampleMsg under sampleKeyA
and sampleNonce. -/
def sampleEnvelope : List Nat :=
  sampleNonce ++ crypto_secretbox_easy sampleMsg sampleNonce sampleKeyA

/-- The plaintext decrypt_data recovers from sampleEnvelope. -/
def sampleDecrypted : List Nat :=
  decipherFrom sampleKeyA sampleNonce 0
    (cipherFrom sampleKeyA sampleNonce 0 sampleMsg)

/-! ## Helper lemmas -/

theorem deflateModel_length_le (level : Nat) (p : List Nat) :
    (deflateModel level p).length ≤ p.length + 7 := by
  unfold deflateModel
  by_cases h : (rleAux p.length p).length < p.length
  · simp only [if_pos h, List.length_cons, List.length_append, List.length_cons]
    simp
    omega
  · simp only [if_neg h, List.length_cons, List.length_append]
    simp

theorem cipherFrom_length (key nonce : List Nat) (i : Nat) (m : List Nat) :
    (cipherFrom key nonce i m).length = m.length := by
  induction m generalizing i with
  | nil => rfl
  | cons b bs ih => simp [cipherFrom, ih]

theorem decipherFrom_length (key nonce : List Nat) (i : Nat) (m : List Nat) :
    (decipherFrom key nonce i m).length = m.length := by
  induction m generalizing i with
  | nil => rfl
  | cons b bs ih => simp [decipherFrom, ih]

theorem macBytes_length (key nonce c : List Nat) :
    (macBytes key nonce c).length = crypto_secretbox_MACBYTES := by
  simp [macBytes]


/-! ## Claim theorems -/

/-- Claim C1: the round-trip property fails in the code at its own
specified scenario.  The empty payload does not round-trip: chunk of
an empty input allocates a 2 * 0 = 0 byte compression buffer, the
compressed stream (which has a fixed positive overhead even for empty
input) cannot fit, and the call fails with the compression error
instead of producing a record. -/
theorem chunk_empty_payload_fails :
    Chunker_chunk DEFAULT_COMPRESSION_LEVEL [] =
      .error .compressionFailed := rfl

/-- Claim C3: encrypt_data receives additional_data but never reads
it, so the envelope is byte-identical for any two associated-data
values; nothing binds the associated data into the authentication
tag, and decrypt_data does not even take an associated-data argument. -/
theorem encrypt_data_ignores_additional_data
    (data key nonce ad1 ad2 : List Nat) (alg : crypto_algorithm_t) :
    encrypt_data data key ad1 nonce alg =
      encrypt_data data key ad2 nonce alg := rfl

/-- Claim C4: the checksum stored in every record Chunker_chunk
produces is the constant placeholder string, not a hash of the
payload or of any envelope; in particular it does not vary with the
input at all. -/
theorem chunk_checksum_is_placeholder (level : Nat) (p : List Nat) :
    Except.map ChunkRecord.checksum (Chunker_chunk level p) =
      Except.map (fun _ => "sha256_hash_here") (Chunker_chunk level p) := by
  unfold Chunker_chunk
  split
  · rfl
  · split <;> rfl

/-- Claim C5: Encryptor_verify checks the signature against a NULL
public key, so it returns false for every input; in particular it
rejects the very signatures Encryptor_sign produces, because sign
generates a fresh keypair from local randomness and discards it. -/
theorem verify_rejects_all_signatures :
    (∀ data signature, Encryptor_verify data signature = false) ∧
    (∀ m seed, Encryptor_verify m (Encryptor_sign m seed) = false) :=
  ⟨fun _ _ => rfl, fun _ _ => rfl⟩

set_option maxRecDepth 4000 in
/-- Claim C6: Chunker_decompress sizes its output buffer as four
times the compressed length, so a payload that compressed better than
4:1 cannot be decompressed: here the valid compressed stream for 100
zero bytes (9 bytes long) is rejected because 100 does not fit in the
4 * 9 = 36 byte buffer.  There is no declared original_length anywhere
in the record. -/
theorem decompress_ratio_cap_fails :
    Chunker_decompress
        (deflateModel DEFAULT_COMPRESSION_LEVEL (List.replicate 100 0)) =
      .error .decompressionFailed := rfl

/-- Claim C10: the algorithm argument of encrypt_data and decrypt_data
never influences the result: any two algorithm values give identical
outputs on identical remaining inputs, because both functions run the
same secretbox primitive regardless. -/
theorem crypto_algorithm_independent (a1 a2 : crypto_algorithm_t)
    (data key ad nonce enc : List Nat) :
    encrypt_data data key ad nonce a1 = encrypt_data data key ad nonce a2 ∧
    decrypt_data enc key a1 = decrypt_data enc key a2 := ⟨rfl, rfl⟩

theorem take_append_self_length (l1 l2 : List Nat) :
    (l1 ++ l2).take l1.length = l1 := by
  simp

/-- Claim C7: Chunker_chunk rejects a payload longer than
MAX_CHUNK_SIZE with the size error, from the check that stands before
the compression buffer is even allocated; and any payload of length
exactly MAX_CHUNK_SIZE passes the check and chunks successfully,
because the compressed stream always fits the allocated buffer of
twice the payload length.  The level hypothesis is the 0..9 range
that Chunker_init enforces at construction. -/
theorem chunk_size_ceiling (level : Nat) (p : List Nat)
    (hl : level ≤ 9) :
    (MAX_CHUNK_SIZE < p.length →
      Chunker_chunk level p = .error .payloadTooLarge) ∧
    (p.length = MAX_CHUNK_SIZE →
      ∃ r, Chunker_chunk level p = .ok r) := by
  constructor
  · intro h
    unfold Chunker_chunk
    rw [if_pos h]
  · intro h
    have hmax : MAX_CHUNK_SIZE = 104857600 := rfl
    have hd := deflateModel_length_le level p
    have hb : (deflateModel level p).length ≤ 2 * p.length := by omega
    unfold Chunker_chunk compress_data
    rw [if_neg (by omega), if_neg (by omega)]
    simp only [hb, if_true, if_pos hb]
    exact ⟨_, rfl⟩

theorem chunk_size_ceiling_witness :
    DEFAULT_COMPRESSION_LEVEL ≤ 9 ∧
    Chunker_chunk DEFAULT_COMPRESSION_LEVEL
        (List.replicate (MAX_CHUNK_SIZE + 1) 0) = .error .payloadTooLarge ∧
    ∃ r, Chunker_chunk DEFAULT_COMPRESSION_LEVEL
        (List.replicate MAX_CHUNK_SIZE 0) = .ok r :=
  ⟨by decide,
   (chunk_size_ceiling DEFAULT_COMPRESSION_LEVEL _ (by decide)).1
     (by simp),
   (chunk_size_ceiling DEFAULT_COMPRESSION_LEVEL _ (by decide)).2
     (by simp)⟩

/-- Claim C8: decrypt_data rejects every input shorter than nonce
length plus tag length through its leading length check, before the
nonce split and before any call into the cipher, and no plaintext is
produced. -/
theorem decrypt_short_input_rejected (enc key : List Nat)
    (alg : crypto_algorithm_t)
    (h : enc.length <
      crypto_secretbox_NONCEBYTES + crypto_secretbox_MACBYTES) :
    decrypt_data enc key alg = .error .malformedEnvelope ∧
    ∀ m, decrypt_data enc key alg ≠ .ok m := by
  have he : decrypt_data enc key alg = .error .malformedEnvelope := by
    unfold decrypt_data
    rw [if_pos h]
  exact ⟨he, fun m hm => by rw [he] at hm; exact Except.noConfusion hm⟩

theorem decrypt_short_input_rejected_witness :
    ([5, 6, 7] : List Nat).length <
      crypto_secretbox_NONCEBYTES + crypto_secretbox_MACBYTES ∧
    decrypt_data [5, 6, 7] sampleKeyA .CRYPTO_XCHACHA20_POLY1305 =
      .error .malformedEnvelope :=
  ⟨by decide,
   (decrypt_short_input_rejected [5, 6, 7] sampleKeyA _ (by decide)).1⟩

/-- Claim C2: whenever the stored tag of an envelope does not match
the tag recomputed from the supplied key, the nonce and the
ciphertext — which is what happens for a different key or for altered
ciphertext-and-tag bytes — decrypt_data takes the single
authentication branch and fails, and no plaintext value is ever
returned. -/
theorem decrypt_rejects_bad_tag (enc key : List Nat)
    (alg : crypto_algorithm_t)
    (hlen : crypto_secretbox_NONCEBYTES + crypto_secretbox_MACBYTES ≤
      enc.length)
    (htag : (enc.drop crypto_secretbox_NONCEBYTES).take
        crypto_secretbox_MACBYTES ≠
      macBytes key (enc.take crypto_secretbox_NONCEBYTES)
        ((enc.drop crypto_secretbox_NONCEBYTES).drop
          crypto_secretbox_MACBYTES)) :
    decrypt_data enc key alg = .error .authenticationFailed ∧
    ∀ m, decrypt_data enc key alg ≠ .ok m := by
  have hd : (enc.drop crypto_secretbox_NONCEBYTES).length =
      enc.length - crypto_secretbox_NONCEBYTES := by
    simp
  have he : decrypt_data enc key alg = .error .authenticationFailed := by
    unfold decrypt_data
    rw [if_neg (by omega)]
    unfold crypto_secretbox_open_easy
    rw [if_neg (by omega), if_neg htag]
  exact ⟨he, fun m hm => by rw [he] at hm; exact Except.noConfusion hm⟩

set_option maxRecDepth 40000 in
theorem decrypt_rejects_bad_tag_witness :
    sampleKeyA ≠ sampleKeyB ∧
    (crypto_secretbox_NONCEBYTES + crypto_secretbox_MACBYTES ≤
        sampleEnvelope.length ∧
      (sampleEnvelope.drop crypto_secretbox_NONCEBYTES).take
          crypto_secretbox_MACBYTES ≠
        macBytes sampleKeyB
          (sampleEnvelope.take crypto_secretbox_NONCEBYTES)
          ((sampleEnvelope.drop crypto_secretbox_NONCEBYTES).drop
            crypto_secretbox_MACBYTES)) ∧
    decrypt_data sampleEnvelope sampleKeyB .CRYPTO_XCHACHA20_POLY1305 =
      .error .authenticationFailed :=
  ⟨by decide, ⟨by decide, by decide⟩,
   (decrypt_rejects_bad_tag sampleEnvelope sampleKeyB
     .CRYPTO_XCHACHA20_POLY1305 (by decide) (by decide)).1⟩

/-- Claim C9: a successful encrypt_data output is exactly nonce plus
tag plus plaintext long and starts with the nonce bytes, and a
successful decrypt_data output is exactly the input length minus
nonce length minus tag length. -/
theorem crypto_exact_sizes :
    (∀ (data key ad nonce e : List Nat) (alg : crypto_algorithm_t),
      nonce.length = crypto_secretbox_NONCEBYTES →
      encrypt_data data key ad nonce alg = some e →
      e.length = crypto_secretbox_NONCEBYTES +
        crypto_secretbox_MACBYTES + data.length ∧
      e.take crypto_secretbox_NONCEBYTES = nonce) ∧
    (∀ (enc key m : List Nat) (alg : crypto_algorithm_t),
      decrypt_data enc key alg = .ok m →
      m.length = enc.length - crypto_secretbox_NONCEBYTES -
        crypto_secretbox_MACBYTES) := by
  constructor
  · intro data key ad nonce e alg hn he
    have hee : e = nonce ++ crypto_secretbox_easy data nonce key := by
      simpa [encrypt_data] using he.symm
    subst hee
    constructor
    · simp [crypto_secretbox_easy, macBytes_length, cipherFrom_length, hn]
      omega
    · rw [← hn]
      exact take_append_self_length _ _
  · intro enc key m alg hd
    unfold decrypt_data at hd
    by_cases hl : enc.length <
        crypto_secretbox_NONCEBYTES + crypto_secretbox_MACBYTES
    · rw [if_pos hl] at hd
      exact absurd hd (by simp)
    · rw [if_neg hl] at hd
      unfold crypto_secretbox_open_easy at hd
      by_cases h1 : (enc.drop crypto_secretbox_NONCEBYTES).length <
          crypto_secretbox_MACBYTES
      · rw [if_pos h1] at hd
        exact absurd hd (by simp)
      · rw [if_neg h1] at hd
        by_cases h2 : (enc.drop crypto_secretbox_NONCEBYTES).take
            crypto_secretbox_MACBYTES =
          macBytes key (enc.take crypto_secretbox_NONCEBYTES)
            ((enc.drop crypto_secretbox_NONCEBYTES).drop
              crypto_secretbox_MACBYTES)
        · rw [if_pos h2] at hd
          have hm : m = decipherFrom key
              (enc.take crypto_secretbox_NONCEBYTES) 0
              ((enc.drop crypto_secretbox_NONCEBYTES).drop
                crypto_secretbox_MACBYTES) := by
            simpa using hd.symm
          subst hm
          simp [decipherFrom_length]
          omega
        · rw [if_neg h2] at hd
          exact absurd hd (by simp)

set_option maxRecDepth 40000 in
theorem crypto_exact_sizes_witness :
    (sampleNonce.length = crypto_secretbox_NONCEBYTES ∧
      encrypt_data sampleMsg sampleKeyA [] sampleNonce
          .CRYPTO_XCHACHA20_POLY1305 = some sampleEnvelope ∧
      sampleEnvelope.length = crypto_secretbox_NONCEBYTES +
        crypto_secretbox_MACBYTES + sampleMsg.length ∧
      sampleEnvelope.take crypto_secretbox_NONCEBYTES = sampleNonce) ∧
    (decrypt_data sampleEnvelope sampleKeyA
        .CRYPTO_XCHACHA20_POLY1305 = .ok sampleDecrypted ∧
      sampleDecrypted.length = sampleEnvelope.length -
        crypto_secretbox_NONCEBYTES - crypto_secretbox_MACBYTES) :=
  ⟨⟨by decide, rfl,
    (crypto_exact_sizes.1 sampleMsg sampleKeyA [] sampleNonce
      sampleEnvelope .CRYPTO_XCHACHA20_POLY1305 (by decide) rfl).1,
    (crypto_exact_sizes.1 sampleMsg sampleKeyA [] sampleNonce
      sampleEnvelope .CRYPTO_XCHACHA20_POLY1305 (by decide) rfl).2⟩,
   ⟨rfl,
    crypto_exact_sizes.2 sampleEnvelope sampleKeyA sampleDecrypted
      .CRYPTO_XCHACHA20_POLY1305 rfl⟩⟩
